import Mathlib

/-!
# Verification of the AutoFill application-form pipeline

A shallow embedding of the batch pipeline in `model.py`: a spreadsheet of
records is loaded, per-record photo files are resolved from an extracted
archive by naming convention, each record is rendered into a document, and
all documents are bundled into a single archive.

Paths are modelled as plain strings, the extracted photo area as an explicit
file-system state, pandas rows as association lists from column name to the
cell's string form, and the rendered document as the context dictionary that
is merged into the fixed template.
-/

namespace AutoFill

/-- `TEMPLATE_PATH` (line 17): path of the constant Word template. -/
def TEMPLATE_PATH : String := "ApplicationForm.docx"

/-- `PHOTO_WIDTH_INCHES` (line 20): fixed target width for inserted photos. -/
def PHOTO_WIDTH_INCHES : Nat := 2

/-- `docx.shared.Inches`: inches to EMU, 914400 EMU per inch, kept exact in `ℚ`. -/
def Inches (n : Nat) : ℚ := (n : ℚ) * 914400

/-- State of the extracted photos area (`photos_dir` and below): the directory
paths that exist, and for every image file its path together with the native
pixel `(width, height)` that `PIL.Image.open` reports for it. -/
structure FS where
  dirs : List String
  files : List (String × Nat × Nat)
deriving DecidableEq

/-- `os.path.isdir`: the path names an existing directory, written either
exactly or with a single trailing separator. -/
def FS.isdir (fs : FS) (p : String) : Bool :=
  fs.dirs.any (fun d => d == p || d ++ "/" == p)

/-- Existence and native size of an image file: `some (w, h)` when the path
names a stored file. -/
def FS.lookupImage (fs : FS) (p : String) : Option (Nat × Nat) :=
  (fs.files.find? (fun t => t.1 == p)).map (fun t => t.2)

/-- `os.path.isfile`. -/
def FS.isfile (fs : FS) (p : String) : Bool :=
  (fs.lookupImage p).isSome

/-- Whether a path string ends with the separator character. -/
def endsWithSlash (s : String) : Bool := s.data.getLast? == some '/'

/-- Whether a path string starts with the separator character. -/
def startsWithSlash (s : String) : Bool := s.data.head? == some '/'

/-- `os.path.join a b` for POSIX paths: an absolute second component wins;
otherwise the components are concatenated with exactly one separator between
them; joining the empty name appends a trailing separator. -/
def ospathJoin (a b : String) : String :=
  if b = "" then (if a = "" then a else if endsWithSlash a then a else a ++ "/")
  else if startsWithSlash b then b
  else if a = "" then b
  else if endsWithSlash a then a ++ b
  else a ++ "/" ++ b

/-- The value bound to a photo slot: the default blank `""` (line 85) or the
`InlineImage` built at lines 99-101, carrying the image path and the display
width and height in EMU. -/
inductive ImgObj where
  | blank : ImgObj
  | image (path : String) (width height : ℚ) : ImgObj
deriving DecidableEq

/-- Lines 93-97: read native `(w, h)`, set ` ratio = h / w`,
`tgt_w = Inches(PHOTO_WIDTH_INCHES)`, `tgt_h = tgt_w * ratio`;
returns `(tgt_w, tgt_h)`. -/
def displaySize (w h : Nat) : ℚ × ℚ :=
  let ratio : ℚ := (h : ℚ) / (w : ℚ)
  let tgt_w : ℚ := Inches PHOTO_WIDTH_INCHES
  let tgt_h : ℚ := tgt_w * ratio
  (tgt_w, tgt_h)

/-- The extension tuple `("jpg", "jpeg", "png")` of line 89. -/
def extPrefList : List String := ["jpg", "jpeg", "png"]

/-- The inner loop of lines 89-102: try `{key}.{ext}` for each extension in
order; on the first existing file build the inline image and stop (`break`);
otherwise fall through with the blank default. -/
def searchExts (fs : FS) (app_folder key : String) : List String → ImgObj
  | [] => ImgObj.blank
  | ext :: rest =>
    let img_path := ospathJoin app_folder (key ++ "." ++ ext)
    match fs.lookupImage img_path with
    | some (w, h) => ImgObj.image img_path (displaySize w h).1 (displaySize w h).2
    | none => searchExts fs app_folder key rest

/-- Lines 83-102 for a single slot `i`: the folder must exist
(`os.path.isdir(app_folder)`), and then the extension search runs; otherwise
the slot stays blank. -/
def resolveSlot (fs : FS) (photos_dir app_no : String) (i : Nat) : ImgObj :=
  let key := "photo" ++ toString i
  let app_folder := ospathJoin photos_dir app_no
  if fs.isdir app_folder then searchExts fs app_folder key extPrefList
  else ImgObj.blank

/-- Python `str.strip()`: remove leading and trailing whitespace. -/
def pyStrip (s : String) : String :=
  ⟨((s.data.dropWhile Char.isWhitespace).reverse.dropWhile Char.isWhitespace).reverse⟩

/-- Python `str.lower()`: lowercase every character. -/
def pyLower (s : String) : String := ⟨s.data.map Char.toLower⟩

/-- Python `str.startswith(pre)`. -/
def pyStartsWith (s pre : String) : Bool := s.data.take pre.data.length == pre.data

/-- One spreadsheet row: an association list from column name to the string
form of the cell value (every column of the sheet is present in the row). -/
abbrev Row := List (String × String)

/-- `str(row.get(c, ""))`: the cell under column `c`, defaulting to `""`. -/
def rowGet (row : Row) (c : String) : String := (List.lookup c row).getD ""

/-- Line 80: `app_no = str(row.get("Application_Number", "")).strip()`. -/
def recordKey (row : Row) : String := pyStrip (rowGet row "Application_Number")

/-- Line 76: `col.lower().startswith("photo")`. -/
def isPhotoCol (c : String) : Bool := pyStartsWith (pyLower c) "photo"

/-- A value stored in the rendering context: a cell passed verbatim by the
comprehension of lines 73-77, or a photo-slot value set at line 106. -/
inductive CtxVal where
  | cell (v : String) : CtxVal
  | slot (o : ImgObj) : CtxVal
deriving DecidableEq

/-- The rendering context, a Python dict in insertion order. -/
abbrev Ctx := List (String × CtxVal)

/-- Python dict assignment `m[k] = v`: overwrite in place when the key is
present, append otherwise. -/
def dictInsert (m : Ctx) (k : String) (v : CtxVal) : Ctx :=
  if m.any (fun p => p.1 == k) then m.map (fun p => if p.1 == k then (k, v) else p)
  else m ++ [(k, v)]

/-- Python dict lookup on the context (first binding of the key). -/
def ctxGet (m : Ctx) (k : String) : Option CtxVal :=
  (m.find? (fun p => p.1 == k)).map (fun p => p.2)

/-- Lines 73-77: the comprehension over `df.columns` keeping every column
whose lowercased name does not start with `"photo"`, bound to its cell. -/
def baseContext (cols : List String) (row : Row) : Ctx :=
  (cols.filter (fun c => !(isPhotoCol c))).foldl
    (fun m c => dictInsert m c (CtxVal.cell (rowGet row c))) []

/-- The slot key `f"photo{i}"` of line 84. -/
def slotKey (i : Nat) : String := "photo" ++ toString i

/-- Line 105: the warning text `Missing ` + backtick + `{key}.*` + backtick +
` in folder ` + backtick + `{app_no}/` + backtick. -/
def warnMsg (key app_no : String) : String :=
  "Missing `" ++ key ++ ".*` in folder `" ++ app_no ++ "/`"

/-- The slot loop of lines 83-106 over the remaining slot numbers: resolve the
slot, emit a warning when the value is (falsy) blank, and assign the slot key
in the context. -/
def processSlots (fs : FS) (photos_dir app_no : String) (ctx : Ctx)
    (warns : List String) : List Nat → Ctx × List String
  | [] => (ctx, warns)
  | i :: rest =>
    let key := slotKey i
    let img_obj := resolveSlot fs photos_dir app_no i
    let warns' := if img_obj = ImgObj.blank then warns ++ [warnMsg key app_no] else warns
    processSlots fs photos_dir app_no (dictInsert ctx key (CtxVal.slot img_obj)) warns' rest

/-- A generated document: the template rendered with a context (`tpl.render`). -/
structure Doc where
  ctx : Ctx
deriving DecidableEq

/-- Lines 69-109 for one row: build the non-photo context, compute the record
key, run the three slot iterations, and render the document. Returns the
rendered document and the warnings emitted for this record, in order. -/
def processRecord (fs : FS) (photos_dir : String) (cols : List String)
    (row : Row) : Doc × List String :=
  let context := baseContext cols row
  let app_no := recordKey row
  let r := processSlots fs photos_dir app_no context [] [1, 2, 3]
  (⟨r.1⟩, r.2)

/-- The parsed spreadsheet: ordered column names and ordered data rows
(`pd.read_excel` gives the rows the positions `0, 1, 2, ...`). -/
structure DataFrame where
  columns : List String
  rows : List Row
deriving DecidableEq

/-- Fatal conditions: lines 45-47 (an upload missing) and 50-54 (the
spreadsheet fails to parse). Both stop the run (`st.stop()`). -/
inductive Fatal where
  | missingInput : Fatal
  | loadError : Fatal
deriving DecidableEq

/-- Line 110: `out_name = f"filled_form_{idx+1}.docx"` for 0-based `idx`. -/
def outName (idx : Nat) : String := "filled_form_" ++ toString (idx + 1) ++ ".docx"

/-- `tpl.save(out_path)` into the outputs directory: overwrite the entry with
this name when present, create it otherwise. -/
def saveFile (dir : List (String × Doc)) (name : String) (d : Doc) :
    List (String × Doc) :=
  if dir.any (fun p => p.1 == name) then
    dir.map (fun p => if p.1 == name then (name, d) else p)
  else dir ++ [(name, d)]

/-- The row loop of lines 69-112: `idx` is the position of the next row,
`dir` the outputs directory contents, `warns` the warnings shown so far. -/
def runRows (fs : FS) (photos_dir : String) (cols : List String) (idx : Nat)
    (dir : List (String × Doc)) (warns : List String) :
    List Row → List (String × Doc) × List String
  | [] => (dir, warns)
  | row :: rest =>
    let r := processRecord fs photos_dir cols row
    runRows fs photos_dir cols (idx + 1) (saveFile dir (outName idx) r.1)
      (warns ++ r.2) rest

/-- Python string comparison for `sorted`: lexicographic by code point. -/
def charListLe : List Char → List Char → Bool
  | [], _ => true
  | _ :: _, [] => false
  | a :: as, b :: bs =>
    if a.toNat < b.toNat then true
    else if b.toNat < a.toNat then false
    else charListLe as bs

/-- Python `a <= b` on strings. -/
def pyStrLe (a b : String) : Bool := charListLe a.data b.data

/-- Insert a name into an already-sorted list of names, keeping it sorted. -/
def insertSorted (n : String) : List String → List String
  | [] => [n]
  | m :: ms => if pyStrLe n m then n :: m :: ms else m :: insertSorted n ms

/-- Python `sorted(...)` on file names: a stable ascending sort under the
code-point lexicographic order, modelled as an insertion sort. -/
def pySorted (l : List String) : List String := l.foldr insertSorted []

/-- Lines 115-119: `for fname in sorted(os.listdir(outputs_dir)):
zipf.write(file_path, arcname=fname)` — the archive entries, in the order
written: each name in sorted order paired with the file read back under it. -/
def bundleOutputs (outputs : List (String × Doc)) : List (String × Doc) :=
  (pySorted (outputs.map Prod.fst)).filterMap
    (fun n => (outputs.find? (fun p => p.1 == n)).map (fun p => (n, p.2)))

/-- The observable result of a successful run: the outputs directory, the
warnings in emission order, and the download archive's entries in order. -/
structure RunOutput where
  outputs : List (String × Doc)
  warnings : List String
  bundle : List (String × Doc)
deriving DecidableEq

/-- Lines 44-128, the whole generate run. `excel_file = none` or
`photos_zip = none` is a missing upload; `some none` for the spreadsheet is a
stream `pd.read_excel` fails on; `photos_zip` carries the file-system state
the archive extracts to under `photos_dir`. -/
def pipeline (excel_file : Option (Option DataFrame)) (photos_zip : Option FS)
    (photos_dir : String) : Except Fatal RunOutput :=
  match excel_file, photos_zip with
  | none, _ => Except.error Fatal.missingInput
  | some _, none => Except.error Fatal.missingInput
  | some ef, some fs =>
    match ef with
    | none => Except.error Fatal.loadError
    | some df =>
      let r := runRows fs photos_dir df.columns 0 [] [] df.rows
      Except.ok ⟨r.1, r.2, bundleOutputs r.1⟩

/-- The candidate path `{photos_dir}/{app_no}/photo{i}.{ext}` tested by the
extension search (line 90). -/
def candidatePath (photos_dir app_no : String) (i : Nat) (ext : String) : String :=
  ospathJoin (ospathJoin photos_dir app_no) ("photo" ++ toString i ++ "." ++ ext)

/-- Concrete extracted archive for the spec's end-to-end scenario: a folder
`A100` with `photo1.jpg` (30x40) and `photo2.png` (10x10), and no folder for
`A101`. -/
def fsW : FS :=
  ⟨["/t/photos", "/t/photos/A100"],
   [("/t/photos/A100/photo1.jpg", 30, 40), ("/t/photos/A100/photo2.png", 10, 10)]⟩

/-- First data row of the scenario, whose key cell carries padding. -/
def rowW1 : Row := [("Application_Number", " A100 "), ("Name", "Bo")]

/-- Second data row of the scenario, whose key has no folder in the archive. -/
def rowW2 : Row := [("Application_Number", "A101"), ("Name", "Cy")]

/-- The scenario spreadsheet: two data rows. -/
def dfW : DataFrame := ⟨["Application_Number", "Name"], [rowW1, rowW2]⟩

/-- An archive whose folder `B1` holds all three candidate extensions for
slot 1 at once. -/
def fsC2 : FS :=
  ⟨["/t/photos", "/t/photos/B1"],
   [("/t/photos/B1/photo1.jpg", 4, 5), ("/t/photos/B1/photo1.jpeg", 6, 7),
    ("/t/photos/B1/photo1.png", 8, 9)]⟩

/-- An archive with a slot-1 image at the top level of the extraction root. -/
def fsR : FS := ⟨["/t/photos"], [("/t/photos/photo1.jpg", 5, 7)]⟩

/-- A row with no `Application_Number` cell at all: its key strips to `""`. -/
def rowEmpty : Row := []

/-! ## Helper lemmas: decimal numerals -/

/-- Numeric value of a decimal digit character. -/
def digitVal (c : Char) : Nat := c.toNat - 48

/-- Value of a most-significant-first decimal digit string. -/
def digitsVal (l : List Char) : Nat := l.foldl (fun a c => 10 * a + digitVal c) 0

theorem digitVal_digitChar (m : Nat) (h : m < 10) : digitVal (Nat.digitChar m) = m := by
  have h10 : ∀ i : Fin 10, digitVal (Nat.digitChar i.val) = i.val := by decide
  exact h10 ⟨m, h⟩

theorem toDigitsCore_foldl :
    ∀ (fuel n : Nat) (ds : List Char), n < fuel →
      List.foldl (fun a c => 10 * a + digitVal c) 0 (Nat.toDigitsCore 10 fuel n ds) =
        List.foldl (fun a c => 10 * a + digitVal c) n ds
  | 0, _, _, h => absurd h (by omega)
  | f + 1, n, ds, h => by
    show List.foldl (fun a c => 10 * a + digitVal c) 0
        (if n / 10 = 0 then Nat.digitChar (n % 10) :: ds
         else Nat.toDigitsCore 10 f (n / 10) (Nat.digitChar (n % 10) :: ds)) = _
    by_cases h10 : n / 10 = 0
    · rw [if_pos h10, List.foldl_cons]
      have hv : 10 * 0 + digitVal (Nat.digitChar (n % 10)) = n := by
        rw [digitVal_digitChar (n % 10) (by omega)]; omega
      rw [hv]
    · rw [if_neg h10,
        toDigitsCore_foldl f (n / 10) (Nat.digitChar (n % 10) :: ds) (by omega),
        List.foldl_cons]
      have hv : 10 * (n / 10) + digitVal (Nat.digitChar (n % 10)) = n := by
        rw [digitVal_digitChar (n % 10) (by omega)]; omega
      rw [hv]

theorem digitsVal_toDigits (n : Nat) : digitsVal (Nat.toDigits 10 n) = n := by
  unfold digitsVal Nat.toDigits
  rw [toDigitsCore_foldl (n + 1) n [] (Nat.lt_succ_self n)]
  rfl

theorem natRepr_inj {a b : Nat} (h : Nat.repr a = Nat.repr b) : a = b := by
  have hd : Nat.toDigits 10 a = Nat.toDigits 10 b := congrArg String.data h
  have hv := congrArg digitsVal hd
  rwa [digitsVal_toDigits, digitsVal_toDigits] at hv

theorem outName_inj {a b : Nat} (h : outName a = outName b) : a = b := by
  have hd := congrArg String.data h
  simp only [outName, String.data_append] at hd
  have h2 : (toString (a + 1)).data = (toString (b + 1)).data :=
    List.append_cancel_left (List.append_cancel_right hd)
  have h3 : Nat.repr (a + 1) = Nat.repr (b + 1) := String.ext h2
  have h4 := natRepr_inj h3
  omega

/-! ## Helper lemmas: the sort order -/

theorem charListLe_total : ∀ as bs, charListLe as bs = true ∨ charListLe bs as = true
  | [], _ => Or.inl rfl
  | _ :: _, [] => Or.inr rfl
  | a :: as, b :: bs => by
    unfold charListLe
    rcases Nat.lt_trichotomy a.toNat b.toNat with h | h | h
    · left; simp [h]
    · have h1 : ¬ a.toNat < b.toNat := by omega
      have h2 : ¬ b.toNat < a.toNat := by omega
      simpa [h1, h2] using charListLe_total as bs
    · right; simp [h]

theorem pyStrLe_total (a b : String) : pyStrLe a b = true ∨ pyStrLe b a = true :=
  charListLe_total a.data b.data

theorem mem_insertSorted (n a : String) :
    ∀ l : List String, a ∈ insertSorted n l ↔ a = n ∨ a ∈ l
  | [] => by simp [insertSorted]
  | m :: ms => by
    unfold insertSorted
    by_cases h : pyStrLe n m = true
    · simp [h, List.mem_cons]
    · simp only [if_neg h, List.mem_cons, mem_insertSorted n a ms]
      tauto

theorem length_insertSorted (n : String) :
    ∀ l : List String, (insertSorted n l).length = l.length + 1
  | [] => rfl
  | m :: ms => by
    unfold insertSorted
    by_cases h : pyStrLe n m = true
    · simp [h]
    · simp [if_neg h, length_insertSorted n ms]

theorem charListLe_trans : ∀ as bs cs, charListLe as bs = true → charListLe bs cs = true →
    charListLe as cs = true
  | [], _, _, _, _ => rfl
  | _ :: _, [], _, h1, _ => by simp [charListLe] at h1
  | _ :: _, _ :: _, [], _, h2 => by simp [charListLe] at h2
  | a :: as, b :: bs, c :: cs, h1, h2 => by
    unfold charListLe at h1 h2 ⊢
    rcases Nat.lt_trichotomy a.toNat b.toNat with hab | hab | hab
    · rcases Nat.lt_trichotomy b.toNat c.toNat with hbc | hbc | hbc
      · simp [show a.toNat < c.toNat from by omega]
      · simp [show a.toNat < c.toNat from by omega]
      · rw [if_neg (by omega), if_pos (by omega)] at h2
        exact absurd h2 (by decide)
    · rw [if_neg (by omega), if_neg (by omega)] at h1
      rcases Nat.lt_trichotomy b.toNat c.toNat with hbc | hbc | hbc
      · simp [show a.toNat < c.toNat from by omega]
      · rw [if_neg (by omega), if_neg (by omega)] at h2
        rw [if_neg (by omega), if_neg (by omega)]
        exact charListLe_trans as bs cs h1 h2
      · rw [if_neg (by omega), if_pos (by omega)] at h2
        exact absurd h2 (by decide)
    · rw [if_neg (by omega), if_pos (by omega)] at h1
      exact absurd h1 (by decide)

theorem pyStrLe_trans {a b c : String} (h1 : pyStrLe a b = true) (h2 : pyStrLe b c = true) :
    pyStrLe a c = true :=
  charListLe_trans a.data b.data c.data h1 h2

theorem sorted_insertSorted (n : String) :
    ∀ l : List String, List.Pairwise (fun a b => pyStrLe a b = true) l →
      List.Pairwise (fun a b => pyStrLe a b = true) (insertSorted n l)
  | [], _ => by simp [insertSorted]
  | m :: ms, hp => by
    unfold insertSorted
    rcases List.pairwise_cons.mp hp with ⟨hm, hms⟩
    by_cases h : pyStrLe n m = true
    · rw [if_pos h]
      refine List.pairwise_cons.mpr ⟨?_, hp⟩
      intro a ha
      rcases List.mem_cons.mp ha with rfl | ha
      · exact h
      · exact pyStrLe_trans h (hm a ha)
    · rw [if_neg h]
      refine List.pairwise_cons.mpr ⟨?_, sorted_insertSorted n ms hms⟩
      intro a ha
      rcases (mem_insertSorted n a ms).mp ha with heq | ha
      · rw [heq]
        rcases pyStrLe_total n m with h' | h'
        · exact absurd h' h
        · exact h'
      · exact hm a ha

theorem sorted_pySorted :
    ∀ l : List String, List.Pairwise (fun a b => pyStrLe a b = true) (pySorted l)
  | [] => List.Pairwise.nil
  | n :: ns => sorted_insertSorted n (pySorted ns) (sorted_pySorted ns)

theorem length_pySorted : ∀ l : List String, (pySorted l).length = l.length
  | [] => rfl
  | n :: ns => by
    show (insertSorted n (pySorted ns)).length = ns.length + 1
    rw [length_insertSorted, length_pySorted ns]

theorem mem_pySorted (a : String) : ∀ l : List String, a ∈ pySorted l ↔ a ∈ l
  | [] => Iff.rfl
  | n :: ns => by
    show a ∈ insertSorted n (pySorted ns) ↔ _
    rw [mem_insertSorted, mem_pySorted a ns, List.mem_cons]

/-! ## Helper lemmas: the row loop and the output bundle -/

theorem saveFile_fresh (dir : List (String × Doc)) (name : String) (d : Doc)
    (h : ∀ p ∈ dir, p.1 ≠ name) : saveFile dir name d = dir ++ [(name, d)] := by
  have hany : dir.any (fun p => p.1 == name) = false := by
    rw [List.any_eq_false]
    intro p hp
    simpa [beq_iff_eq] using h p hp
  simp [saveFile, hany]

theorem runRows_names (fs : FS) (pd : String) (cols : List String) :
    ∀ (rows : List Row) (k : Nat) (dir : List (String × Doc)) (warns : List String),
      dir.map Prod.fst = (List.range k).map outName →
      ((runRows fs pd cols k dir warns rows).1).map Prod.fst
        = (List.range (k + rows.length)).map outName
  | [], k, dir, warns, h => by simpa using h
  | row :: rest, k, dir, warns, h => by
    have hfresh : ∀ p ∈ dir, p.1 ≠ outName k := by
      intro p hp hcontra
      have hmem : p.1 ∈ dir.map Prod.fst := List.mem_map.mpr ⟨p, hp, rfl⟩
      rw [h] at hmem
      rcases List.mem_map.mp hmem with ⟨j, hj, hje⟩
      rw [hcontra] at hje
      have hjk := outName_inj hje
      rw [List.mem_range] at hj
      omega
    have hlen : k + (row :: rest).length = (k + 1) + rest.length := by
      rw [List.length_cons]
      omega
    rw [hlen]
    show ((runRows fs pd cols (k + 1)
        (saveFile dir (outName k) (processRecord fs pd cols row).1)
        (warns ++ (processRecord fs pd cols row).2) rest).1).map Prod.fst = _
    refine runRows_names fs pd cols rest (k + 1) _ _ ?_
    rw [saveFile_fresh dir (outName k) _ hfresh, List.map_append, h,
      List.range_succ, List.map_append]
    rfl

theorem runRows_length (fs : FS) (pd : String) (cols : List String) (rows : List Row) :
    ((runRows fs pd cols 0 [] [] rows).1).length = rows.length := by
  have h := runRows_names fs pd cols rows 0 [] [] (by simp)
  have h2 := congrArg List.length h
  simpa using h2

theorem filterMap_find_names (outputs : List (String × Doc)) :
    ∀ ns : List String, (∀ n ∈ ns, ∃ p ∈ outputs, p.1 = n) →
      (ns.filterMap
        (fun n => (outputs.find? (fun p => p.1 == n)).map (fun p => (n, p.2)))).map Prod.fst
        = ns
  | [], _ => rfl
  | n :: rest, h => by
    obtain ⟨p, hp, hpn⟩ := h n (List.mem_cons_self n rest)
    have hfind : (outputs.find? (fun q => q.1 == n)).isSome = true := by
      rw [List.find?_isSome]
      refine ⟨p, hp, ?_⟩
      simp [beq_iff_eq, hpn]
    obtain ⟨q, hq⟩ := Option.isSome_iff_exists.mp hfind
    simp only [List.filterMap_cons, hq, Option.map_some', List.map_cons]
    rw [filterMap_find_names outputs rest (fun m hm => h m (List.mem_cons_of_mem _ hm))]

theorem bundle_names (outputs : List (String × Doc)) :
    (bundleOutputs outputs).map Prod.fst = pySorted (outputs.map Prod.fst) := by
  unfold bundleOutputs
  apply filterMap_find_names
  intro n hn
  have hmem : n ∈ outputs.map Prod.fst := (mem_pySorted n (outputs.map Prod.fst)).mp hn
  rcases List.mem_map.mp hmem with ⟨p, hp, hpn⟩
  exact ⟨p, hp, hpn⟩

theorem bundle_length (outputs : List (String × Doc)) :
    (bundleOutputs outputs).length = outputs.length := by
  have h := congrArg List.length (bundle_names outputs)
  rwa [List.length_map, length_pySorted, List.length_map] at h

theorem bundle_sorted (outputs : List (String × Doc)) :
    List.Pairwise (fun a b => pyStrLe a b = true) ((bundleOutputs outputs).map Prod.fst) := by
  rw [bundle_names]
  exact sorted_pySorted (outputs.map Prod.fst)

/-! ## Helper lemmas: the rendering context -/

theorem find?_overwrite (k : String) (v : CtxVal) :
    ∀ m : Ctx, m.any (fun p => p.1 == k) = true →
      (m.map (fun p => if p.1 == k then (k, v) else p)).find? (fun p => p.1 == k)
        = some (k, v)
  | [], h => by simp at h
  | p :: m, h => by
    by_cases hp : p.1 = k
    · rw [List.map_cons, if_pos (by simp [hp])]
      exact List.find?_cons_of_pos _ (by simp)
    · rw [List.map_cons, if_neg (by simp [beq_iff_eq, hp]),
        List.find?_cons_of_neg _ (by simp [beq_iff_eq, hp])]
      apply find?_overwrite k v m
      rw [List.any_cons] at h
      rcases Bool.or_eq_true_iff.mp h with h' | h'
      · exact absurd (beq_iff_eq.mp h') hp
      · exact h'

theorem find?_overwrite_ne (k k' : String) (v : CtxVal) (h : k' ≠ k) :
    ∀ m : Ctx, (m.map (fun p => if p.1 == k then (k, v) else p)).find? (fun p => p.1 == k')
      = m.find? (fun p => p.1 == k')
  | [] => rfl
  | p :: m => by
    by_cases hp : p.1 = k
    · rw [List.map_cons, if_pos (by simp [hp]),
        List.find?_cons_of_neg _ (by simp only [beq_iff_eq]; exact Ne.symm h),
        List.find?_cons_of_neg _ (by simp only [beq_iff_eq, hp]; exact Ne.symm h)]
      exact find?_overwrite_ne k k' v h m
    · rw [List.map_cons, if_neg (by simp [beq_iff_eq, hp])]
      by_cases hq : p.1 = k'
      · rw [List.find?_cons_of_pos _ (by simp [hq]), List.find?_cons_of_pos _ (by simp [hq])]
      · rw [List.find?_cons_of_neg _ (by simp [beq_iff_eq, hq]),
          List.find?_cons_of_neg _ (by simp [beq_iff_eq, hq])]
        exact find?_overwrite_ne k k' v h m

theorem ctxGet_dictInsert_self (m : Ctx) (k : String) (v : CtxVal) :
    ctxGet (dictInsert m k v) k = some v := by
  unfold dictInsert ctxGet
  by_cases h : m.any (fun p => p.1 == k) = true
  · rw [if_pos h, find?_overwrite k v m h]
    rfl
  · have hf : m.any (fun p => p.1 == k) = false := Bool.eq_false_iff.mpr h
    rw [if_neg h, List.find?_append, List.find?_eq_none.mpr (List.any_eq_false.mp hf),
      Option.none_or, List.find?_cons_of_pos _ (by simp)]
    rfl

theorem ctxGet_dictInsert_ne (m : Ctx) (k : String) (v : CtxVal) (k' : String)
    (h : k' ≠ k) : ctxGet (dictInsert m k v) k' = ctxGet m k' := by
  unfold dictInsert ctxGet
  by_cases hany : m.any (fun p => p.1 == k) = true
  · rw [if_pos hany, find?_overwrite_ne k k' v h m]
  · rw [if_neg hany, List.find?_append,
      show List.find? (fun p => p.1 == k') [(k, v)] = none from
        List.find?_eq_none.mpr (by
          intro x hx
          rcases List.mem_singleton.mp hx with rfl
          simp only [beq_iff_eq]
          exact Ne.symm h),
      Option.or_none]

theorem ctxGet_foldl_cells (row : Row) :
    ∀ (cs : List String) (m : Ctx) (c : String),
      ctxGet (cs.foldl (fun m' c' => dictInsert m' c' (CtxVal.cell (rowGet row c'))) m) c
        = if c ∈ cs then some (CtxVal.cell (rowGet row c)) else ctxGet m c
  | [], m, c => by simp
  | c' :: cs, m, c => by
    rw [List.foldl_cons, ctxGet_foldl_cells row cs _ c]
    by_cases hc : c ∈ cs
    · rw [if_pos hc, if_pos (List.mem_cons_of_mem _ hc)]
    · by_cases hcc : c = c'
      · subst hcc
        rw [if_neg hc, ctxGet_dictInsert_self, if_pos (List.mem_cons_self _ _)]
      · rw [if_neg hc, ctxGet_dictInsert_ne m c' _ c hcc,
          if_neg (by simp [List.mem_cons, hcc, hc])]

theorem ctxGet_baseContext (cols : List String) (row : Row) (c : String) :
    ctxGet (baseContext cols row) c
      = if c ∈ cols ∧ isPhotoCol c = false then some (CtxVal.cell (rowGet row c))
        else none := by
  unfold baseContext
  rw [ctxGet_foldl_cells]
  by_cases h : c ∈ cols.filter (fun c' => !(isPhotoCol c'))
  · rw [if_pos h]
    rw [List.mem_filter] at h
    rw [if_pos ⟨h.1, by simpa using h.2⟩]
  · rw [if_neg h, if_neg]
    · rfl
    · rw [List.mem_filter] at h
      intro hc
      exact h ⟨hc.1, by simp [hc.2]⟩

/-! ## Helper lemmas: the slot loop -/

theorem processSlots_fst (fs : FS) (pd app_no : String) :
    ∀ (slots : List Nat) (ctx : Ctx) (warns : List String),
      (processSlots fs pd app_no ctx warns slots).1
        = slots.foldl
            (fun m i => dictInsert m (slotKey i) (CtxVal.slot (resolveSlot fs pd app_no i)))
            ctx
  | [], _, _ => rfl
  | i :: rest, ctx, warns => by
    by_cases hb : resolveSlot fs pd app_no i = ImgObj.blank
    · simp only [processSlots, if_pos hb, List.foldl_cons]
      exact processSlots_fst fs pd app_no rest _ _
    · simp only [processSlots, if_neg hb, List.foldl_cons]
      exact processSlots_fst fs pd app_no rest _ _

theorem processSlots_snd (fs : FS) (pd app_no : String) :
    ∀ (slots : List Nat) (ctx : Ctx) (warns : List String),
      (processSlots fs pd app_no ctx warns slots).2
        = warns ++ (slots.filter
            (fun i => decide (resolveSlot fs pd app_no i = ImgObj.blank))).map
            (fun i => warnMsg (slotKey i) app_no)
  | [], _, _ => by simp [processSlots]
  | i :: rest, ctx, warns => by
    by_cases hb : resolveSlot fs pd app_no i = ImgObj.blank
    · simp only [processSlots, if_pos hb]
      rw [processSlots_snd fs pd app_no rest _ _]
      simp [List.filter_cons, hb]
    · simp only [processSlots, if_neg hb]
      rw [processSlots_snd fs pd app_no rest _ _]
      simp [List.filter_cons, hb]

theorem ctxGet_slots (ctx : Ctx) (v1 v2 v3 : CtxVal) (c : String) :
    ctxGet (dictInsert (dictInsert (dictInsert ctx (slotKey 1) v1) (slotKey 2) v2)
        (slotKey 3) v3) c
      = if c = slotKey 3 then some v3
        else if c = slotKey 2 then some v2
        else if c = slotKey 1 then some v1
        else ctxGet ctx c := by
  by_cases h3 : c = slotKey 3
  · subst h3
    rw [ctxGet_dictInsert_self, if_pos rfl]
  · rw [ctxGet_dictInsert_ne _ _ _ _ h3, if_neg h3]
    by_cases h2 : c = slotKey 2
    · subst h2
      rw [ctxGet_dictInsert_self, if_pos rfl]
    · rw [ctxGet_dictInsert_ne _ _ _ _ h2, if_neg h2]
      by_cases h1 : c = slotKey 1
      · subst h1
        rw [ctxGet_dictInsert_self, if_pos rfl]
      · rw [ctxGet_dictInsert_ne _ _ _ _ h1, if_neg h1]

theorem processRecord_ctx (fs : FS) (pd : String) (cols : List String) (row : Row)
    (c : String) :
    ctxGet (processRecord fs pd cols row).1.ctx c
      = if c = slotKey 3 then some (CtxVal.slot (resolveSlot fs pd (recordKey row) 3))
        else if c = slotKey 2 then some (CtxVal.slot (resolveSlot fs pd (recordKey row) 2))
        else if c = slotKey 1 then some (CtxVal.slot (resolveSlot fs pd (recordKey row) 1))
        else ctxGet (baseContext cols row) c := by
  have h1 : (processRecord fs pd cols row).1.ctx
      = (processSlots fs pd (recordKey row) (baseContext cols row) [] [1, 2, 3]).1 := rfl
  rw [h1, processSlots_fst]
  simp only [List.foldl_cons, List.foldl_nil]
  exact ctxGet_slots _ _ _ _ c

theorem processRecord_warns (fs : FS) (pd : String) (cols : List String) (row : Row) :
    (processRecord fs pd cols row).2
      = (([1, 2, 3] : List Nat).filter
          (fun i => decide (resolveSlot fs pd (recordKey row) i = ImgObj.blank))).map
          (fun i => warnMsg (slotKey i) (recordKey row)) := by
  have h1 : (processRecord fs pd cols row).2
      = (processSlots fs pd (recordKey row) (baseContext cols row) [] [1, 2, 3]).2 := rfl
  rw [h1, processSlots_snd]
  simp

/-! ## Helper lemmas: resolution shapes and path strings -/

theorem searchExts_shape (fs : FS) (folder key : String) :
    ∀ exts : List String, searchExts fs folder key exts = ImgObj.blank ∨
      ∃ ext w h, ext ∈ exts ∧
        fs.lookupImage (ospathJoin folder (key ++ "." ++ ext)) = some (w, h) ∧
        searchExts fs folder key exts
          = ImgObj.image (ospathJoin folder (key ++ "." ++ ext))
              (displaySize w h).1 (displaySize w h).2
  | [] => Or.inl rfl
  | ext :: rest => by
    cases hl : fs.lookupImage (ospathJoin folder (key ++ "." ++ ext)) with
    | none =>
      rcases searchExts_shape fs folder key rest with h | ⟨e, w, hh, hmem, hlk, heq⟩
      · left
        simpa [searchExts, hl] using h
      · right
        exact ⟨e, w, hh, List.mem_cons_of_mem _ hmem, hlk, by simp [searchExts, hl, heq]⟩
    | some wh =>
      obtain ⟨w, hh⟩ := wh
      right
      exact ⟨ext, w, hh, List.mem_cons_self _ _, hl, by simp [searchExts, hl]⟩

theorem resolveSlot_shape (fs : FS) (pd app_no : String) (i : Nat) :
    resolveSlot fs pd app_no i = ImgObj.blank ∨
      ∃ p w h, fs.lookupImage p = some (w, h) ∧
        resolveSlot fs pd app_no i = ImgObj.image p (displaySize w h).1 (displaySize w h).2 := by
  unfold resolveSlot
  by_cases hd : fs.isdir (ospathJoin pd app_no) = true
  · rw [if_pos hd]
    rcases searchExts_shape fs (ospathJoin pd app_no) ("photo" ++ toString i) extPrefList
      with h | ⟨ext, w, hh, _, hlk, heq⟩
    · exact Or.inl h
    · exact Or.inr ⟨_, w, hh, hlk, heq⟩
  · rw [if_neg hd]
    exact Or.inl rfl

theorem append_ne_empty_left (a b : String) (h : a ≠ "") : a ++ b ≠ "" := by
  intro he
  apply h
  have hd := congrArg String.data he
  rw [String.data_append] at hd
  have h2 := List.append_eq_nil.mp hd
  exact String.ext h2.1

theorem startsWithSlash_append (a b : String) (h : a ≠ "") :
    startsWithSlash (a ++ b) = startsWithSlash a := by
  unfold startsWithSlash
  rw [String.data_append,
    List.head?_append_of_ne_nil a.data (fun hnil => h (String.ext hnil))]

theorem endsWithSlash_append_slash (p : String) : endsWithSlash (p ++ "/") = true := by
  unfold endsWithSlash
  rw [String.data_append, show ("/" : String).data = ['/'] from rfl,
    List.getLast?_concat]
  rfl

theorem ospathJoin_empty (pd : String) (h1 : pd ≠ "") (h2 : endsWithSlash pd = false) :
    ospathJoin pd "" = pd ++ "/" := by
  unfold ospathJoin
  rw [if_pos rfl, if_neg h1, if_neg (by simp [h2])]

theorem ospathJoin_slashEnd (a b : String) (hb : b ≠ "")
    (hs : startsWithSlash b = false) : ospathJoin (a ++ "/") b = (a ++ "/") ++ b := by
  unfold ospathJoin
  rw [if_neg hb, if_neg (by simp [hs]),
    if_neg (show ¬(a ++ "/" = "") from by
      intro he
      have hd := congrArg String.data he
      rw [String.data_append] at hd
      simp at hd),
    if_pos (endsWithSlash_append_slash a)]

theorem isdir_slash (fs : FS) (pd : String) (h : pd ∈ fs.dirs) :
    fs.isdir (pd ++ "/") = true := by
  unfold FS.isdir
  rw [List.any_eq_true]
  exact ⟨pd, h, by simp⟩

theorem searchExts_cons_some (fs : FS) (folder key ext : String) (rest : List String)
    (w h : Nat)
    (hl : fs.lookupImage (ospathJoin folder (key ++ "." ++ ext)) = some (w, h)) :
    searchExts fs folder key (ext :: rest)
      = ImgObj.image (ospathJoin folder (key ++ "." ++ ext))
          (displaySize w h).1 (displaySize w h).2 := by
  simp [searchExts, hl]

theorem searchExts_cons_none (fs : FS) (folder key ext : String) (rest : List String)
    (hl : fs.lookupImage (ospathJoin folder (key ++ "." ++ ext)) = none) :
    searchExts fs folder key (ext :: rest) = searchExts fs folder key rest := by
  simp [searchExts, hl]

theorem warnMsg_explicit (i : Nat) (k : String) :
    warnMsg (slotKey i) k
      = "Missing `photo" ++ toString i ++ ".*` in folder `" ++ k ++ "/`" := by
  unfold warnMsg slotKey
  have hlit : ("Missing `" ++ "photo" : String) = "Missing `photo" := rfl
  rw [← String.append_assoc, hlit]

/-! ## Claims -/

/-- C1: for every spreadsheet with `R` data rows that loads successfully (and
with every per-record render succeeding, which rendering in this model always
does), the run writes exactly `R` documents into the outputs directory and the
final archive holds exactly `R` entries, one per input record. -/
theorem C1_document_and_bundle_count (df : DataFrame) (fs : FS) (pd : String)
    (out : RunOutput) (h : pipeline (some (some df)) (some fs) pd = Except.ok out) :
    out.outputs.length = df.rows.length ∧ out.bundle.length = df.rows.length := by
  simp only [pipeline] at h
  injection h with h3
  subst h3
  refine ⟨runRows_length fs pd df.columns df.rows, ?_⟩
  rw [bundle_length]
  exact runRows_length fs pd df.columns df.rows

/-- C1 witness: the end-to-end scenario run loads, succeeds, and yields two
documents and a two-entry archive for its two data rows. -/
theorem C1_document_and_bundle_count_witness :
    ∃ out, pipeline (some (some dfW)) (some fsW) "/t/photos" = Except.ok out ∧
      out.outputs.length = dfW.rows.length ∧ out.bundle.length = dfW.rows.length :=
  ⟨_, rfl, C1_document_and_bundle_count dfW fsW "/t/photos" _ rfl⟩

/-- C7: in every successful run the document for the row at 0-based index
`idx` (1-based position `idx + 1`) is named `filled_form_{idx+1}.docx`, in row
order, and the archive entry names are pairwise in the code-point
lexicographic order, i.e. sorted lexicographically. -/
theorem C7_naming_and_bundle_order (df : DataFrame) (fs : FS) (pd : String)
    (out : RunOutput) (h : pipeline (some (some df)) (some fs) pd = Except.ok out) :
    out.outputs.map Prod.fst = (List.range df.rows.length).map outName ∧
    List.Pairwise (fun a b => pyStrLe a b = true) (out.bundle.map Prod.fst) := by
  simp only [pipeline] at h
  injection h with h3
  subst h3
  constructor
  · have hn := runRows_names fs pd df.columns df.rows 0 [] [] (by simp)
    simpa using hn
  · exact bundle_sorted _

/-- C7 witness: the scenario run names its two documents `filled_form_1.docx`
and `filled_form_2.docx` and its archive entries come out sorted. -/
theorem C7_naming_and_bundle_order_witness :
    ∃ out, pipeline (some (some dfW)) (some fsW) "/t/photos" = Except.ok out ∧
      out.outputs.map Prod.fst = (List.range dfW.rows.length).map outName ∧
      List.Pairwise (fun a b => pyStrLe a b = true) (out.bundle.map Prod.fst) := by
  obtain ⟨h1, h2⟩ := C7_naming_and_bundle_order dfW fsW "/t/photos" _ rfl
  exact ⟨_, rfl, h1, h2⟩

/-- C9: a missing upload or an unparsable spreadsheet makes the run stop with
a fatal error and no run output at all (no record processed, no artifact
produced), while a loaded spreadsheet always reaches a successful output with
one document per row — warnings never block generation. -/
theorem C9_fatal_halts_warnings_do_not :
    (∀ (z : Option FS) (pd : String),
        pipeline none z pd = Except.error Fatal.missingInput) ∧
    (∀ (ef : Option DataFrame) (pd : String),
        pipeline (some ef) none pd = Except.error Fatal.missingInput) ∧
    (∀ (fs : FS) (pd : String),
        pipeline (some none) (some fs) pd = Except.error Fatal.loadError) ∧
    (∀ (df : DataFrame) (fs : FS) (pd : String),
        ∃ out, pipeline (some (some df)) (some fs) pd = Except.ok out ∧
          out.outputs.length = df.rows.length) := by
  refine ⟨fun z pd => rfl, fun ef pd => rfl, fun fs pd => rfl, fun df fs pd => ?_⟩
  exact ⟨_, rfl, runRows_length fs pd df.columns df.rows⟩

/-- C2: when the record's folder exists, slot resolution tries
`photo{i}.jpg`, then `.jpeg`, then `.png`, and returns the first candidate
that exists — a `jpg` candidate wins outright, a `jpeg` candidate wins
whenever `jpg` is absent, and `png` is used only when both others are absent,
regardless of which further candidates exist. -/
theorem C2_extension_preference (fs : FS) (pd app_no : String) (i w h : Nat)
    (hdir : fs.isdir (ospathJoin pd app_no) = true) :
    (fs.lookupImage (candidatePath pd app_no i "jpg") = some (w, h) →
      resolveSlot fs pd app_no i
        = ImgObj.image (candidatePath pd app_no i "jpg")
            (displaySize w h).1 (displaySize w h).2) ∧
    (fs.lookupImage (candidatePath pd app_no i "jpg") = none →
     fs.lookupImage (candidatePath pd app_no i "jpeg") = some (w, h) →
      resolveSlot fs pd app_no i
        = ImgObj.image (candidatePath pd app_no i "jpeg")
            (displaySize w h).1 (displaySize w h).2) ∧
    (fs.lookupImage (candidatePath pd app_no i "jpg") = none →
     fs.lookupImage (candidatePath pd app_no i "jpeg") = none →
     fs.lookupImage (candidatePath pd app_no i "png") = some (w, h) →
      resolveSlot fs pd app_no i
        = ImgObj.image (candidatePath pd app_no i "png")
            (displaySize w h).1 (displaySize w h).2) := by
  have hres : resolveSlot fs pd app_no i
      = searchExts fs (ospathJoin pd app_no) ("photo" ++ toString i) extPrefList := by
    unfold resolveSlot
    rw [if_pos hdir]
  have hlist : extPrefList = "jpg" :: "jpeg" :: "png" :: [] := rfl
  refine ⟨?_, ?_, ?_⟩
  · intro h1
    rw [hres, hlist, searchExts_cons_some fs _ _ "jpg" _ w h h1]
    rfl
  · intro h1 h2
    rw [hres, hlist, searchExts_cons_none fs _ _ "jpg" _ h1,
      searchExts_cons_some fs _ _ "jpeg" _ w h h2]
    rfl
  · intro h1 h2 h3
    rw [hres, hlist, searchExts_cons_none fs _ _ "jpg" _ h1,
      searchExts_cons_none fs _ _ "jpeg" _ h2,
      searchExts_cons_some fs _ _ "png" _ w h h3]
    rfl

/-- C2 witness: in a folder holding `photo1.jpg`, `photo1.jpeg` and
`photo1.png` at once, resolution returns the `jpg` candidate. -/
theorem C2_extension_preference_witness :
    fsC2.isdir (ospathJoin "/t/photos" "B1") = true ∧
    fsC2.lookupImage (candidatePath "/t/photos" "B1" 1 "jpg") = some (4, 5) ∧
    fsC2.lookupImage (candidatePath "/t/photos" "B1" 1 "jpeg") = some (6, 7) ∧
    fsC2.lookupImage (candidatePath "/t/photos" "B1" 1 "png") = some (8, 9) ∧
    resolveSlot fsC2 "/t/photos" "B1" 1
      = ImgObj.image (candidatePath "/t/photos" "B1" 1 "jpg")
          (displaySize 4 5).1 (displaySize 4 5).2 :=
  ⟨by decide, by decide, by decide, by decide,
   (C2_extension_preference fsC2 "/t/photos" "B1" 1 4 5 (by decide)).1 (by decide)⟩

/-- C3: a record whose key has no matching folder is still processed: it gets
exactly three warnings (one per slot, in slot order) and a rendered document
whose three photo slots all hold the blank value. -/
theorem C3_missing_folder_degrades (fs : FS) (pd : String) (cols : List String)
    (row : Row) (hdir : fs.isdir (ospathJoin pd (recordKey row)) = false) :
    (processRecord fs pd cols row).2
      = [warnMsg (slotKey 1) (recordKey row), warnMsg (slotKey 2) (recordKey row),
         warnMsg (slotKey 3) (recordKey row)] ∧
    ∀ i, i = 1 ∨ i = 2 ∨ i = 3 →
      ctxGet (processRecord fs pd cols row).1.ctx (slotKey i)
        = some (CtxVal.slot ImgObj.blank) := by
  have hblank : ∀ j, resolveSlot fs pd (recordKey row) j = ImgObj.blank := by
    intro j
    unfold resolveSlot
    rw [if_neg (by simp [hdir])]
  constructor
  · rw [processRecord_warns]
    simp [hblank]
  · intro i hi
    rw [processRecord_ctx]
    rcases hi with rfl | rfl | rfl
    · rw [if_neg (by decide), if_neg (by decide), if_pos rfl, hblank]
    · rw [if_neg (by decide), if_pos rfl, hblank]
    · rw [if_pos rfl, hblank]

/-- C3 witness: the scenario's second record (`A101`, no folder) yields three
warnings and blank slots, and its document still exists. -/
theorem C3_missing_folder_degrades_witness :
    fsW.isdir (ospathJoin "/t/photos" (recordKey rowW2)) = false ∧
    (processRecord fsW "/t/photos" ["Application_Number", "Name"] rowW2).2
      = [warnMsg (slotKey 1) (recordKey rowW2), warnMsg (slotKey 2) (recordKey rowW2),
         warnMsg (slotKey 3) (recordKey rowW2)] ∧
    ctxGet (processRecord fsW "/t/photos" ["Application_Number", "Name"] rowW2).1.ctx
        (slotKey 2) = some (CtxVal.slot ImgObj.blank) := by
  have h := C3_missing_folder_degrades fsW "/t/photos" ["Application_Number", "Name"]
    rowW2 (by decide)
  exact ⟨by decide, h.1, h.2 2 (by decide)⟩

/-- C4: the folder key is the record's `Application_Number` value with
surrounding whitespace stripped, so a padded cell `" A100 "` resolves exactly
as the key `"A100"` does — it matches a folder named `A100`. -/
theorem C4_key_is_stripped (row : Row)
    (h : List.lookup "Application_Number" row = some " A100 ") :
    recordKey row = "A100" ∧
    ∀ (fs : FS) (pd : String) (i : Nat),
      resolveSlot fs pd (recordKey row) i = resolveSlot fs pd "A100" i := by
  have hk : recordKey row = "A100" := by
    unfold recordKey rowGet
    rw [h]
    rfl
  exact ⟨hk, fun fs pd i => by rw [hk]⟩

/-- C4 witness: the scenario's first record carries `" A100 "` and resolves
against the folder `A100`, finding its `photo1.jpg`. -/
theorem C4_key_is_stripped_witness :
    List.lookup "Application_Number" rowW1 = some " A100 " ∧
    recordKey rowW1 = "A100" ∧
    resolveSlot fsW "/t/photos" (recordKey rowW1) 1
      = resolveSlot fsW "/t/photos" "A100" 1 := by
  have h := C4_key_is_stripped rowW1 (by decide)
  exact ⟨by decide, h.1, h.2 fsW "/t/photos" 1⟩

/-- C5: for a resolved photo of native size `w x h` with `w > 0`, the display
width is the fixed `Inches PHOTO_WIDTH_INCHES`, the display height is that
width times `h / w`, and height divided by width is exactly `h / w`. -/
theorem C5_aspect_ratio_preserved (w h : Nat) (hw : 0 < w) :
    (displaySize w h).1 = Inches PHOTO_WIDTH_INCHES ∧
    (displaySize w h).2 = Inches PHOTO_WIDTH_INCHES * ((h : ℚ) / (w : ℚ)) ∧
    (displaySize w h).2 / (displaySize w h).1 = (h : ℚ) / (w : ℚ) := by
  have hW : Inches PHOTO_WIDTH_INCHES ≠ (0 : ℚ) := by
    unfold Inches PHOTO_WIDTH_INCHES
    norm_num
  refine ⟨rfl, rfl, ?_⟩
  show Inches PHOTO_WIDTH_INCHES * ((h : ℚ) / (w : ℚ)) / Inches PHOTO_WIDTH_INCHES = _
  exact mul_div_cancel_left₀ _ hW

/-- C5 witness: a 30x40 image gets display height / display width = 40 / 30. -/
theorem C5_aspect_ratio_preserved_witness :
    (0 < 30) ∧ (displaySize 30 40).2 / (displaySize 30 40).1 = (40 : ℚ) / 30 :=
  ⟨by decide, (C5_aspect_ratio_preserved 30 40 (by decide)).2.2⟩

/-- C6: the rendering context binds every column whose lowercased name does
not start with `photo` to its cell value verbatim; it binds each slot key
`photo{i}` to the slot's resolved value, which is either blank or an image
carrying the precomputed display size; and no photo-prefixed name is ever
bound to a verbatim cell. -/
theorem C6_context_routing (fs : FS) (pd : String) (cols : List String) (row : Row) :
    (∀ c, c ∈ cols → isPhotoCol c = false →
      ctxGet (processRecord fs pd cols row).1.ctx c
        = some (CtxVal.cell (rowGet row c))) ∧
    (∀ i, i = 1 ∨ i = 2 ∨ i = 3 →
      ctxGet (processRecord fs pd cols row).1.ctx (slotKey i)
        = some (CtxVal.slot (resolveSlot fs pd (recordKey row) i)) ∧
      (resolveSlot fs pd (recordKey row) i = ImgObj.blank ∨
        ∃ p w h, fs.lookupImage p = some (w, h) ∧
          resolveSlot fs pd (recordKey row) i
            = ImgObj.image p (displaySize w h).1 (displaySize w h).2)) ∧
    (∀ c v, isPhotoCol c = true →
      ctxGet (processRecord fs pd cols row).1.ctx c ≠ some (CtxVal.cell v)) := by
  have hphoto : ∀ j, j = 1 ∨ j = 2 ∨ j = 3 → isPhotoCol (slotKey j) = true := by
    intro j hj
    rcases hj with rfl | rfl | rfl <;> decide
  refine ⟨?_, ?_, ?_⟩
  · intro c hc hcp
    have hne : ∀ j, j = 1 ∨ j = 2 ∨ j = 3 → c ≠ slotKey j := by
      intro j hj hcontra
      rw [hcontra, hphoto j hj] at hcp
      exact Bool.noConfusion hcp
    rw [processRecord_ctx, if_neg (hne 3 (Or.inr (Or.inr rfl))),
      if_neg (hne 2 (Or.inr (Or.inl rfl))), if_neg (hne 1 (Or.inl rfl)),
      ctxGet_baseContext, if_pos ⟨hc, hcp⟩]
  · intro i hi
    constructor
    · rw [processRecord_ctx]
      rcases hi with rfl | rfl | rfl
      · rw [if_neg (by decide), if_neg (by decide), if_pos rfl]
      · rw [if_neg (by decide), if_pos rfl]
      · rw [if_pos rfl]
    · exact resolveSlot_shape fs pd (recordKey row) i
  · intro c v hcp
    rw [processRecord_ctx]
    by_cases h3 : c = slotKey 3
    · rw [if_pos h3]; simp
    · rw [if_neg h3]
      by_cases h2 : c = slotKey 2
      · rw [if_pos h2]; simp
      · rw [if_neg h2]
        by_cases h1 : c = slotKey 1
        · rw [if_pos h1]; simp
        · rw [if_neg h1, ctxGet_baseContext]
          by_cases hmem : c ∈ cols ∧ isPhotoCol c = false
          · exact absurd hmem.2 (by simp [hcp])
          · rw [if_neg hmem]
            simp

/-- C6 witness: in the scenario's first record, the non-photo column `Name`
passes through verbatim and slot 1 is bound to its resolved value. -/
theorem C6_context_routing_witness :
    ("Name" ∈ (["Application_Number", "Name"] : List String)) ∧
    isPhotoCol "Name" = false ∧
    ctxGet (processRecord fsW "/t/photos" ["Application_Number", "Name"] rowW1).1.ctx
        "Name" = some (CtxVal.cell (rowGet rowW1 "Name")) ∧
    ctxGet (processRecord fsW "/t/photos" ["Application_Number", "Name"] rowW1).1.ctx
        (slotKey 1)
      = some (CtxVal.slot (resolveSlot fsW "/t/photos" (recordKey rowW1) 1)) := by
  have h := C6_context_routing fsW "/t/photos" ["Application_Number", "Name"] rowW1
  exact ⟨by decide, by decide, h.1 "Name" (by decide) (by decide),
    (h.2.1 1 (Or.inl rfl)).1⟩

/-- C8 counterexample: at the scenario's second record the first emitted
warning is the backtick-delimited text of line 105, which is not the
double-quoted string the claim prescribes. -/
theorem C8_warning_format_counterexample :
    (processRecord fsW "/t/photos" ["Application_Number", "Name"] rowW2).2.head?
      = some "Missing `photo1.*` in folder `A101/`" ∧
    ¬ (processRecord fsW "/t/photos" ["Application_Number", "Name"] rowW2).2.head?
      = some "Missing \"photo1.*\" in folder \"A101/\"" := by
  constructor
  · decide
  · decide

/-- C8 (amended): for every unresolved photo slot the emitted warning line is
exactly the backtick-delimited text `Missing` + backtick + `photo{N}.*` +
backtick + ` in folder ` + backtick + `{key}/` + backtick, containing the
slot number and the record key — backticks, not double quotes, delimit the
two fields. -/
theorem C8_warning_format_amended (fs : FS) (pd : String) (cols : List String)
    (row : Row) :
    (processRecord fs pd cols row).2
      = (([1, 2, 3] : List Nat).filter
          (fun i => decide (resolveSlot fs pd (recordKey row) i = ImgObj.blank))).map
          (fun i =>
            "Missing `photo" ++ toString i ++ ".*` in folder `" ++ recordKey row ++ "/`") := by
  rw [processRecord_warns]
  simp only [warnMsg_explicit]

/-- C10: a record whose stripped key is empty is resolved against the
extraction root itself: `os.path.join(photos_dir, "")` is the root with a
trailing separator, which is a directory, so a top-level `photo{i}.jpg` in
the archive is matched for that record rather than reported missing. -/
theorem C10_empty_key_uses_root (fs : FS) (pd : String) (row : Row) (i w h : Nat)
    (hpd : pd ≠ "") (hpd2 : endsWithSlash pd = false)
    (hkey : recordKey row = "") (hroot : pd ∈ fs.dirs)
    (hjpg : fs.lookupImage ((pd ++ "/") ++ ("photo" ++ toString i ++ "." ++ "jpg"))
      = some (w, h)) :
    resolveSlot fs pd (recordKey row) i
      = ImgObj.image ((pd ++ "/") ++ ("photo" ++ toString i ++ "." ++ "jpg"))
          (displaySize w h).1 (displaySize w h).2 ∧
    resolveSlot fs pd (recordKey row) i ≠ ImgObj.blank := by
  have hphne : ("photo" ++ toString i : String) ≠ "" :=
    append_ne_empty_left "photo" _ (by decide)
  have hdotne : ("photo" ++ toString i ++ "." : String) ≠ "" :=
    append_ne_empty_left _ "." hphne
  have hfullne : ("photo" ++ toString i ++ "." ++ "jpg" : String) ≠ "" :=
    append_ne_empty_left _ "jpg" hdotne
  have hsw : startsWithSlash ("photo" ++ toString i ++ "." ++ "jpg") = false := by
    rw [startsWithSlash_append _ "jpg" hdotne, startsWithSlash_append _ "." hphne,
      startsWithSlash_append "photo" _ (by decide)]
    decide
  have hmain : resolveSlot fs pd (recordKey row) i
      = ImgObj.image ((pd ++ "/") ++ ("photo" ++ toString i ++ "." ++ "jpg"))
          (displaySize w h).1 (displaySize w h).2 := by
    rw [hkey]
    unfold resolveSlot
    rw [ospathJoin_empty pd hpd hpd2, if_pos (isdir_slash fs pd hroot),
      show extPrefList = "jpg" :: "jpeg" :: "png" :: [] from rfl,
      searchExts_cons_some fs (pd ++ "/") ("photo" ++ toString i) "jpg" _ w h
        (by rw [ospathJoin_slashEnd pd ("photo" ++ toString i ++ "." ++ "jpg") hfullne hsw]
            exact hjpg),
      ospathJoin_slashEnd pd ("photo" ++ toString i ++ "." ++ "jpg") hfullne hsw]
  exact ⟨hmain, by rw [hmain]; simp⟩

/-- C10 witness: a row without any `Application_Number` cell strips to the
empty key and still matches the top-level `photo1.jpg` of the archive. -/
theorem C10_empty_key_uses_root_witness :
    recordKey rowEmpty = "" ∧
    resolveSlot fsR "/t/photos" (recordKey rowEmpty) 1
      = ImgObj.image (("/t/photos" ++ "/") ++ ("photo" ++ toString 1 ++ "." ++ "jpg"))
          (displaySize 5 7).1 (displaySize 5 7).2 ∧
    resolveSlot fsR "/t/photos" (recordKey rowEmpty) 1 ≠ ImgObj.blank := by
  have h := C10_empty_key_uses_root fsR "/t/photos" rowEmpty 1 5 7
    (by decide) (by decide) (by decide) (by decide) (by decide)
  exact ⟨by decide, h.1, h.2⟩

end AutoFill
